import Mathlib

/-!
Shallow embedding of the piet web-canvas backend (src/piet-web/src/lib.rs).

Conventions of the embedding:
* Geometry scalars (points, rectangles, gradient positions, baselines) are
  modelled as rationals (ℚ); the code only copies them and adds them, so no
  rounding behaviour is relevant to the claims about them.
* Stroke-parameter scalars (line width, miter limit, dash lengths, dash
  offset) are compared by the source with the IEEE f64 equality operators,
  whose NaN behaviour is observable in the diff guards of set_stroke; they
  are therefore modelled by the F64 type below, which keeps NaN and its
  irreflexive equality.
* The native canvas surface (CanvasRenderingContext2d) is modelled as the
  ordered trace of native calls issued to it; every native mutation the Rust
  code performs appends one NativeCall to the trace.
* Fallible native calls are modelled by passing their outcome in as an
  explicit argument (an Except value); a JsValue error is modelled by its
  debug-representation string.
* The Vec of canvas states grows at the end in Rust; here the HEAD of the
  list is the top of the stack (Rust last() is Lean head).
-/

/-- A Rust f64 as the stroke code observes it.  The source only clones these
values and compares them with the IEEE equality operators, so for those
observations an f64 is either nan (every NaN payload behaves alike: it
compares unequal to everything, itself included) or a number (with +0 and -0
identified, since they compare equal). -/
inductive F64 where
  | num (q : ℚ)
  | nan
deriving DecidableEq, Repr

/-- IEEE f64 equality (Rust PartialEq::eq): nan is equal to nothing,
numbers compare by value. -/
def F64.beq : F64 → F64 → Bool
  | .num a, .num b => a = b
  | _, _ => false

/-- IEEE f64 inequality (Rust PartialEq::ne): the negation of equality, so
nan is unequal to everything, itself included. -/
def F64.bne (a b : F64) : Bool := !(F64.beq a b)

/-- Whether an f64 value is NaN. -/
def F64.isNan : F64 → Bool
  | .nan => true
  | _ => false

/-- Rust slice equality on Vec of f64 (as derived for StrokeDash): equal
lengths and elementwise IEEE equality. -/
def F64.listBeq : List F64 → List F64 → Bool
  | [], [] => true
  | x :: xs, y :: ys => F64.beq x y && F64.listBeq xs ys
  | _, _ => false

/-- Rust slice inequality on Vec of f64: negation of slice equality. -/
def F64.listBne (xs ys : List F64) : Bool := !(F64.listBeq xs ys)

/-- Piet LineCap (consumed contract of the piet core crate). -/
inductive LineCap where
  | Butt
  | Round
  | Square
deriving DecidableEq, Repr

/-- Piet LineJoin (consumed contract): the Miter variant carries its limit. -/
inductive LineJoin where
  | Miter (limit : F64)
  | Round
  | Bevel
deriving DecidableEq, Repr

/-- Modelled from the spec: piet StrokeStyle.miter_limit returns the limit when
the join is Miter, and nothing otherwise. -/
def LineJoin.miterLimit : LineJoin → Option F64
  | .Miter l => some l
  | _ => none

/-- Rust derived PartialEq::eq on LineJoin: the miter limits are compared
with IEEE f64 equality. -/
def LineJoin.beq : LineJoin → LineJoin → Bool
  | .Miter a, .Miter b => F64.beq a b
  | .Round, .Round => true
  | .Bevel, .Bevel => true
  | _, _ => false

/-- Rust derived PartialEq::ne on LineJoin. -/
def LineJoin.bne (a b : LineJoin) : Bool := !(LineJoin.beq a b)

/-- A line join whose miter limit (when present) is not NaN. -/
def LineJoin.nanFree : LineJoin → Bool
  | .Miter l => !l.isNan
  | _ => true

/-- Piet StrokeStyle (consumed contract §6 of the spec): cap enum, join enum
with optional miter limit, dash pattern as ordered list of lengths, dash
offset. -/
structure StrokeStyle where
  line_join : LineJoin
  line_cap : LineCap
  dash_pattern : List F64
  dash_offset : F64
deriving DecidableEq, Repr

/-- Modelled from the spec: the piet StrokeStyle default (butt cap, miter join
with limit 10, no dash, zero offset), matching the platform defaults listed in
spec §3. -/
def StrokeStyle.default : StrokeStyle :=
  { line_join := .Miter (.num 10)
    line_cap := .Butt
    dash_pattern := []
    dash_offset := .num 0 }

/-- A stroke style none of whose f64 parameters is NaN: the miter limit, the
dash lengths and the dash offset. -/
def StrokeStyle.nanFree (s : StrokeStyle) : Bool :=
  s.line_join.nanFree && s.dash_pattern.all (fun x => !x.isNan) && !s.dash_offset.isNan

/-- CanvasState from lib.rs lines 54-61: the per-save-level snapshot of the
stroke parameters of the native canvas. -/
structure CanvasState where
  line_cap : LineCap
  line_dash : List F64
  line_dash_offset : F64
  line_join : LineJoin
  line_width : F64
deriving DecidableEq, Repr

/-- CanvasState default values according to the Canvas API (lib.rs 63-80). -/
def CanvasState.default : CanvasState :=
  { line_cap := .Butt
    line_dash := []
    line_dash_offset := .num 0
    line_join := .Miter (.num 10)
    line_width := .num 1 }

/-- Piet Error (consumed contract): the backend only ever produces the
Unimplemented variant and wrapped backend errors carrying a message. -/
inductive Error where
  | Unimplemented
  | BackendError (msg : String)
deriving DecidableEq, Repr

/-- A JsValue used as an error is modelled by its debug-representation
string. -/
abbrev JsVal := String

/-- WrapError for Result of JsValue (lib.rs 117-132): boxes the JsValue into a
generic error whose message is the WrappedJs display, namely the text
Canvas error followed by the debug representation. -/
def wrapJs (e : JsVal) : Error :=
  .BackendError ("Canvas error: " ++ e)

/-- The error component of an Except value, when present. -/
def Except.errValue : Except ε α → Option ε
  | .error e => some e
  | .ok _ => none

/-- Kurbo Point (consumed contract). -/
structure Point where
  x : ℚ
  y : ℚ
deriving DecidableEq, Repr

/-- Kurbo Rect (consumed contract). -/
structure Rect where
  x0 : ℚ
  y0 : ℚ
  x1 : ℚ
  y1 : ℚ
deriving DecidableEq, Repr

/-- Rect.width of kurbo. -/
def Rect.width (r : Rect) : ℚ := r.x1 - r.x0

/-- Rect.height of kurbo. -/
def Rect.height (r : Rect) : ℚ := r.y1 - r.y0

/-- Piet Color (consumed contract): a color packed as a 32-bit RGBA value. -/
structure Color where
  rgba : Nat
deriving DecidableEq, Repr

/-- Color.as_rgba_u32 (consumed contract): the packed 32-bit RGBA value. -/
def Color.as_rgba_u32 (c : Color) : Nat := c.rgba % 2 ^ 32

/-- Piet GradientStop (consumed contract): a position and a color. -/
structure GradientStop where
  pos : ℚ
  color : Color
deriving DecidableEq, Repr

/-- Piet FixedLinearGradient (consumed contract): start point, end point and
ordered stops.  The end point is named endp because end is reserved. -/
structure FixedLinearGradient where
  start : Point
  endp : Point
  stops : List GradientStop
deriving DecidableEq, Repr

/-- Piet FixedRadialGradient (consumed contract): center, origin offset,
radius and ordered stops. -/
structure FixedRadialGradient where
  center : Point
  origin_offset : Point
  radius : ℚ
  stops : List GradientStop
deriving DecidableEq, Repr

/-- Piet FixedGradient (consumed contract). -/
inductive FixedGradient where
  | Linear (l : FixedLinearGradient)
  | Radial (r : FixedRadialGradient)
deriving DecidableEq, Repr

/-- A native CanvasGradient object, modelled as the ordered list of
add_color_stop calls issued on it, each a position and a CSS color string. -/
structure CanvasGradient where
  stops : List (ℚ × String)
deriving DecidableEq, Repr

/-- Brush from lib.rs 93-97: a packed-RGBA solid color or a native gradient
handle. -/
inductive Brush where
  | Solid (rgba : Nat)
  | Gradient (g : CanvasGradient)
deriving DecidableEq, Repr

/-- One native call issued to the canvas surface.  Every mutation the Rust
code performs on the CanvasRenderingContext2d appends one of these to the
context trace. -/
inductive NativeCall where
  | save
  | restore
  | setLineWidth (w : F64)
  | setLineJoin (j : String)
  | setMiterLimit (l : F64)
  | setLineCap (c : String)
  | setLineDash (d : List F64)
  | setLineDashOffset (o : F64)
  | setFont (f : String)
  | setFillStyle (v : String)
  | setStrokeStyle (v : String)
  | fillText (text : List Char) (x : ℚ) (y : ℚ)
  | createLinearGradient (x0 y0 x1 y1 : ℚ)
  | createRadialGradient (x0 y0 r0 x1 y1 r1 : ℚ)
  | drawImage (src : Rect) (dst : Rect)
  | setShadowBlur (b : ℚ)
  | setShadowColor (c : String)
  | fillRect (x y w h : ℚ)
deriving DecidableEq, Repr

/-- The WebRenderContext state (lib.rs 31-39): the native surface (as its call
trace), the deferred-error slot, and the saved-state stack.  The head of
canvas_states is the top of the Rust Vec. -/
structure WebRenderContext where
  trace : List NativeCall
  err : Except Error Unit
  canvas_states : List CanvasState
deriving Repr

/-- convert_line_cap (lib.rs 134-140). -/
def convert_line_cap : LineCap → String
  | .Butt => "butt"
  | .Round => "round"
  | .Square => "square"

/-- convert_line_join (lib.rs 142-148). -/
def convert_line_join : LineJoin → String
  | .Miter _ => "miter"
  | .Round => "round"
  | .Bevel => "bevel"

/-- byte_to_frac (lib.rs 567-569): low byte scaled into the unit interval. -/
def byte_to_frac (byte : Nat) : ℚ :=
  ((byte % 256 : Nat) : ℚ) * (1 / 255)

/-- Lowercase hexadecimal rendering of a number padded to six digits, the
Rust format directive 06x used by format_color. -/
def padHex6 (n : Nat) : String :=
  let ds := Nat.toDigits 16 n
  String.mk (List.replicate (6 - ds.length) '0' ++ ds)

/-- Decimal rendering of a rational in the unit interval with three fraction
digits, the Rust format directive .3 used by format_color (only reached for
alpha below 255, so the integer part is always zero). -/
def fmtFrac3 (q : ℚ) : String :=
  let n := (q * 1000 + 1 / 2).floor.toNat
  let ds := Nat.toDigits 10 n
  "0." ++ String.mk (List.replicate (3 - ds.length) '0' ++ ds)

/-- format_color (lib.rs 468-482): hex form when the alpha byte is 255,
otherwise an rgba functional form with the alpha as a three-digit fraction. -/
def format_color (rgba : Nat) : String :=
  let rgb := rgba / 256
  let a := rgba % 256
  if a = 255 then
    "#" ++ padHex6 (rgba / 256)
  else
    "rgba(" ++ toString (rgb / 65536 % 256) ++ "," ++ toString (rgb / 256 % 256) ++
      "," ++ toString (rgb % 256) ++ "," ++ fmtFrac3 (byte_to_frac a) ++ ")"

namespace WebRenderContext

/-- WebRenderContext.new (lib.rs 42-51): no error pending and a single default
canvas state on the stack. -/
def new : WebRenderContext :=
  { trace := []
    err := .ok ()
    canvas_states := [CanvasState.default] }

/-- status (lib.rs 173-175): mem::replace of the deferred-error slot with Ok,
returning the previous contents. -/
def status (c : WebRenderContext) : Except Error Unit × WebRenderContext :=
  (c.err, { c with err := .ok () })

/-- finish (lib.rs 302-304): delegates to status. -/
def finish (c : WebRenderContext) : Except Error Unit × WebRenderContext :=
  c.status

/-- save (lib.rs 286-291): a native save, then push a clone of the top canvas
state.  The Rust code unwraps last() (the stack is never empty on any
reachable state, proved below); the unreachable empty case is totalised with
the default state. -/
def save (c : WebRenderContext) : Except Error Unit × WebRenderContext :=
  (.ok (),
    { c with
        trace := c.trace ++ [.save]
        canvas_states := c.canvas_states.headD CanvasState.default :: c.canvas_states })

/-- restore (lib.rs 293-300): pop the state and issue a native restore only if
more than the base entry remains; otherwise do nothing.  Always returns Ok. -/
def restore (c : WebRenderContext) : Except Error Unit × WebRenderContext :=
  if c.canvas_states.length > 1 then
    (.ok (),
      { c with
          trace := c.trace ++ [.restore]
          canvas_states := c.canvas_states.tail })
  else
    (.ok (), c)

/-- solid_brush (lib.rs 191-193). -/
def solid_brush (color : Color) : Brush :=
  .Solid color.as_rgba_u32

/-- set_stroke (lib.rs 514-547): apply stroke parameters, pushing each of
width, join (with miter limit), cap, dash pattern and dash offset to the
native surface only when the source IEEE != comparison against the
top-of-stack snapshot holds, and updating the snapshot in place.  Each step
yields the native calls it issued and the updated snapshot. -/
def set_stroke (c : WebRenderContext) (width : F64) (style? : Option StrokeStyle) :
    WebRenderContext :=
  let style := style?.getD StrokeStyle.default
  let cs := c.canvas_states.headD CanvasState.default
  let p1 :=
    if F64.bne width cs.line_width then
      ([NativeCall.setLineWidth width], { cs with line_width := width })
    else ([], cs)
  let p2 :=
    if LineJoin.bne style.line_join p1.2.line_join then
      (NativeCall.setLineJoin (convert_line_join style.line_join) ::
        (match style.line_join.miterLimit with
         | some limit => [NativeCall.setMiterLimit limit]
         | none => []),
       { p1.2 with line_join := style.line_join })
    else ([], p1.2)
  let p3 :=
    if style.line_cap ≠ p2.2.line_cap then
      ([NativeCall.setLineCap (convert_line_cap style.line_cap)],
       { p2.2 with line_cap := style.line_cap })
    else ([], p2.2)
  let p4 :=
    if F64.listBne style.dash_pattern p3.2.line_dash then
      ([NativeCall.setLineDash style.dash_pattern],
       { p3.2 with line_dash := style.dash_pattern })
    else ([], p3.2)
  let p5 :=
    if F64.bne style.dash_offset p4.2.line_dash_offset then
      ([NativeCall.setLineDashOffset style.dash_offset],
       { p4.2 with line_dash_offset := style.dash_offset })
    else ([], p4.2)
  { c with
      trace := c.trace ++ p1.1 ++ p2.1 ++ p3.1 ++ p4.1 ++ p5.1
      canvas_states := p5.2 :: c.canvas_states.tail }

end WebRenderContext

/-- The canvas state produced by applying a width and style, for stating the
snapshot-update property of set_stroke. -/
def appliedState (width : F64) (style : StrokeStyle) : CanvasState :=
  { line_cap := style.line_cap
    line_dash := style.dash_pattern
    line_dash_offset := style.dash_offset
    line_join := style.line_join
    line_width := width }

/-- WebImage (lib.rs 100-106): the native off-screen drawable (kept here as
the uploaded straight-RGBA byte list) with its explicit dimensions. -/
structure WebImage where
  width : Nat
  height : Nat
  data : List Nat
deriving DecidableEq, Repr

/-- draw_image (lib.rs 419-450): wrapped in with_save (piet core helper,
modelled from the spec: save, run the body, restore, combine the body result
with the restore result); the native draw call targets the explicit source
rectangle or the whole image; a failure is recorded in the deferred-error
slot.  The outcome of the native draw call is passed in as result. -/
def draw_image (c : WebRenderContext) (image : WebImage) (src_rect : Option Rect)
    (dst_rect : Rect) (result : Except JsVal Unit) : WebRenderContext :=
  let c1 := (c.save).2
  let src := src_rect.getD ⟨0, 0, (image.width : ℚ), (image.height : ℚ)⟩
  let bodyRes : Except Error Unit :=
    match result with
    | .ok _ => .ok ()
    | .error e => .error (wrapJs e)
  let c2 := { c1 with trace := c1.trace ++ [NativeCall.drawImage src dst_rect] }
  let r3 := c2.restore
  let combined : Except Error Unit :=
    match bodyRes with
    | .ok _ => r3.1
    | .error e => .error e
  match combined with
  | .error e => { r3.2 with err := .error e }
  | .ok _ => r3.2

/-- set_gradient_stops (lib.rs 484-490): issue one add_color_stop call per
stop, in order, with the color rendered through format_color. -/
def set_gradient_stops (dst : CanvasGradient) (src : List GradientStop) : CanvasGradient :=
  src.foldl
    (fun g stop =>
      { g with stops := g.stops ++ [(stop.pos, format_color stop.color.as_rgba_u32)] })
    dst

/-- gradient (lib.rs 195-216): build a native linear or radial gradient and
add every stop in order.  Creating a linear gradient is infallible in the
native API; creating a radial gradient is fallible, and the outcome of that
native call is passed in as radialResult. -/
def WebRenderContext.gradient (c : WebRenderContext) (g : FixedGradient)
    (radialResult : Except JsVal CanvasGradient) :
    Except Error Brush × WebRenderContext :=
  match g with
  | .Linear linear =>
    let c1 :=
      { c with
          trace := c.trace ++
            [.createLinearGradient linear.start.x linear.start.y linear.endp.x linear.endp.y] }
    let lg : CanvasGradient := { stops := [] }
    (.ok (.Gradient (set_gradient_stops lg linear.stops)), c1)
  | .Radial radial =>
    let xc := radial.center.x
    let yc := radial.center.y
    let xo := radial.origin_offset.x
    let yo := radial.origin_offset.y
    let r := radial.radius
    let c1 :=
      { c with
          trace := c.trace ++ [.createRadialGradient (xc + xo) (yc + yo) 0 xc yc r] }
    match radialResult with
    | .error e => (.error (wrapJs e), c1)
    | .ok rg => (.ok (.Gradient (set_gradient_stops rg radial.stops)), c1)

/-- blurred_rect (lib.rs 404-416): set the shadow blur, set the shadow color
from the brush (a fixed placeholder for gradient brushes), fill the
rectangle, then reset the shadow color. -/
def blurred_rect (c : WebRenderContext) (rect : Rect) (blur_radius : ℚ)
    (brush : Brush) : WebRenderContext :=
  let color :=
    match brush with
    | .Solid rgba => format_color rgba
    | .Gradient _ => "#f0f"
  { c with
      trace := c.trace ++
        [.setShadowBlur blur_radius, .setShadowColor color,
         .fillRect rect.x0 rect.y0 rect.width rect.height,
         .setShadowColor "none"] }

/-- Modelled from the spec: WebFont of the piet-web text module (not under
src/), reduced to the CSS font string that get_font_string produces from the
font description. -/
structure WebFont where
  font_string : String
deriving DecidableEq, Repr

/-- Modelled from the spec: WebFont.get_font_string of the piet-web text
module. -/
def WebFont.get_font_string (f : WebFont) : String := f.font_string

/-- Modelled from the spec: a piet LineMetric, holding the byte range into the
text and the vertical and baseline offsets of one line. -/
structure LineMetric where
  start_offset : Nat
  end_offset : Nat
  y_offset : ℚ
  baseline : ℚ
deriving DecidableEq, Repr

/-- Modelled from the spec: WebTextLayout of the piet-web text module (not
under src/): the shaped text, a font description, a single color and the
ordered line metrics. -/
structure WebTextLayout where
  text : List Char
  font : WebFont
  color : Color
  line_metrics : List LineMetric
deriving DecidableEq, Repr

/-- The slice of the layout text covered by the byte range of one line
metric. -/
def lineText (layout : WebTextLayout) (lm : LineMetric) : List Char :=
  (layout.text.drop lm.start_offset).take (lm.end_offset - lm.start_offset)

/-- The per-line loop of draw_text (lib.rs 274-282): one native fill_text
call per line metric, recording any failure into the deferred-error slot.
The outcome of the fill_text call for line number i is results i. -/
def drawTextLines (layout : WebTextLayout) (pos : Point)
    (results : Nat → Except JsVal Unit) :
    Nat → List LineMetric → WebRenderContext → WebRenderContext
  | _, [], c => c
  | i, lm :: rest, c =>
    let line_y := lm.y_offset + lm.baseline + pos.y
    let c1 := { c with trace := c.trace ++ [.fillText (lineText layout lm) pos.x line_y] }
    let c2 :=
      match results i with
      | .error e => { c1 with err := .error (wrapJs e) }
      | .ok _ => c1
    drawTextLines layout pos results (i + 1) rest c2

/-- draw_text (lib.rs 266-284): native save, set the font from the layout
font description, set the fill paint from the single layout color, then one
fill_text call per line metric, then native restore. -/
def draw_text (c : WebRenderContext) (layout : WebTextLayout) (pos : Point)
    (results : Nat → Except JsVal Unit) : WebRenderContext :=
  let c1 :=
    { c with
        trace := c.trace ++
          [.save, .setFont layout.font.get_font_string,
           .setFillStyle (format_color layout.color.as_rgba_u32)] }
  let c2 := drawTextLines layout pos results 0 layout.line_metrics c1
  { c2 with trace := c2.trace ++ [.restore] }

/-- Piet ImageFormat (consumed contract). -/
inductive ImageFormat where
  | RgbaSeparate
  | RgbaPremul
  | Rgb
  | Grayscale
deriving DecidableEq, Repr

/-- Modelled from the spec: piet util unpremul (piet core, not under src/),
which converts a premultiplied channel back to straight alpha by dividing the
channel by the alpha, clamped to a byte; zero alpha yields zero. -/
def unpremul (x a : Nat) : Nat :=
  if a = 0 then 0 else min 255 (x * 255 / a)

/-- The pixel-buffer conversion of make_image (lib.rs 327-362): RgbaSeparate
passes the buffer through; the other formats fill a fresh buffer of
width * height * 4 zeros with one write per channel per pixel, exactly as the
Rust loops do.  Out-of-range reads are totalised with 0 (the Rust code would
panic there; no claim depends on that case). -/
def makeImageBuf (width height : Nat) (buf : List Nat) : ImageFormat → List Nat
  | .RgbaSeparate => buf
  | .RgbaPremul =>
    (List.range (width * height)).foldl
      (fun new_buf i =>
        let a := buf.getD (i * 4 + 3) 0
        (((new_buf.set (i * 4 + 0) (unpremul (buf.getD (i * 4 + 0) 0) a)).set
            (i * 4 + 1) (unpremul (buf.getD (i * 4 + 1) 0) a)).set
            (i * 4 + 2) (unpremul (buf.getD (i * 4 + 2) 0) a)).set
            (i * 4 + 3) a)
      (List.replicate (width * height * 4) 0)
  | .Rgb =>
    (List.range (width * height)).foldl
      (fun new_buf i =>
        (((new_buf.set (i * 4 + 0) (buf.getD (i * 3 + 0) 0)).set
            (i * 4 + 1) (buf.getD (i * 3 + 1) 0)).set
            (i * 4 + 2) (buf.getD (i * 3 + 2) 0)).set
            (i * 4 + 3) 255)
      (List.replicate (width * height * 4) 0)
  | .Grayscale =>
    (List.range (width * height)).foldl
      (fun new_buf i =>
        (((new_buf.set (i * 4 + 0) (buf.getD i 0)).set
            (i * 4 + 1) (buf.getD i 0)).set
            (i * 4 + 2) (buf.getD i 0)).set
            (i * 4 + 3) 255)
      (List.replicate (width * height * 4) 0)

/-- make_image (lib.rs 315-377): convert the buffer to straight RGBA8 and
upload it.  The outcomes of the two fallible native calls (ImageData
construction and put_image_data) are passed in; each failure is wrapped. -/
def make_image (width height : Nat) (buf : List Nat) (format : ImageFormat)
    (imageDataResult : Except JsVal Unit) (putResult : Except JsVal Unit) :
    Except Error WebImage :=
  let data := makeImageBuf width height buf format
  match imageDataResult with
  | .error e => .error (wrapJs e)
  | .ok _ =>
    match putResult with
    | .error e => .error (wrapJs e)
    | .ok _ => .ok { width := width, height := height, data := data }

/-- capture_image_area (lib.rs 400-402): unconditionally unimplemented. -/
def capture_image_area (_rect : Rect) : Except Error WebImage :=
  .error .Unimplemented

/-- A save or restore call, for stating properties of call sequences. -/
inductive SROp where
  | save
  | restore
deriving DecidableEq, Repr

/-- Apply one save or restore call, discarding the (always Ok) result. -/
def applySR (c : WebRenderContext) : SROp → WebRenderContext
  | .save => (c.save).2
  | .restore => (c.restore).2

/-- Run a sequence of save and restore calls from a fresh context. -/
def runSR (ops : List SROp) : WebRenderContext :=
  ops.foldl applySR WebRenderContext.new

/-- The stack stays nonempty under one save or restore call. -/
theorem applySR_preserves_nonempty (c : WebRenderContext) (op : SROp)
    (h : 1 ≤ c.canvas_states.length) :
    1 ≤ (applySR c op).canvas_states.length := by
  cases op with
  | save =>
    simp [applySR, WebRenderContext.save]
  | restore =>
    simp only [applySR, WebRenderContext.restore]
    split
    · next hgt =>
      simp only [List.length_tail]
      omega
    · exact h

/-- Folding save and restore calls preserves stack nonemptiness. -/
theorem foldl_applySR_nonempty (ops : List SROp) (c : WebRenderContext)
    (h : 1 ≤ c.canvas_states.length) :
    1 ≤ (ops.foldl applySR c).canvas_states.length := by
  induction ops generalizing c with
  | nil => exact h
  | cons op rest ih =>
    exact ih _ (applySR_preserves_nonempty c op h)

/-- C1: for every sequence of save and restore calls on a fresh
WebRenderContext the saved-state stack always holds at least one entry, and a
restore issued when only the base entry remains (stack length one) leaves the
whole context state unchanged. -/
theorem save_restore_stack_invariant :
    (∀ ops : List SROp, 1 ≤ (runSR ops).canvas_states.length) ∧
    (∀ c : WebRenderContext, c.canvas_states.length = 1 → (c.restore).2 = c) := by
  constructor
  · intro ops
    exact foldl_applySR_nonempty ops WebRenderContext.new (by simp [WebRenderContext.new])
  · intro c h
    simp [WebRenderContext.restore, h]

/-- Witness for C1: a restore on the fresh context (base entry only) is a
no-op. -/
theorem save_restore_stack_invariant_witness :
    (WebRenderContext.new.restore).2 = WebRenderContext.new :=
  save_restore_stack_invariant.2 WebRenderContext.new (by simp [WebRenderContext.new])

/-- C9: finish is extensionally equal to status: same returned result and same
resulting context state, in every context state. -/
theorem finish_eq_status (c : WebRenderContext) :
    c.finish = c.status :=
  rfl

/-- C10: save and restore never report failure and never touch the
deferred-error slot, in every context state, including a restore issued with
only the base entry on the stack. -/
theorem save_restore_infallible (c : WebRenderContext) :
    (c.save).1 = .ok () ∧ (c.save).2.err = c.err ∧
    (c.restore).1 = .ok () ∧ (c.restore).2.err = c.err := by
  refine ⟨rfl, rfl, ?_, ?_⟩ <;>
    · simp only [WebRenderContext.restore]
      split <;> rfl

/-- restore always returns Ok. -/
theorem restore_fst (c : WebRenderContext) : (c.restore).1 = .ok () := by
  simp only [WebRenderContext.restore]
  split <;> rfl

/-- restore leaves the deferred-error slot untouched. -/
theorem restore_snd_err (c : WebRenderContext) : (c.restore).2.err = c.err := by
  simp only [WebRenderContext.restore]
  split <;> rfl

/-- C2: status returns the recorded deferred failure and clears the slot, so
the immediately following status returns success; a draw operation whose
native call succeeds leaves a pending unread failure in place, while one
whose native call fails overwrites the slot with the new wrapped failure. -/
theorem status_deferred_error_protocol (c : WebRenderContext) (image : WebImage)
    (src : Option Rect) (dst : Rect) (e : JsVal) :
    (c.status).1 = c.err ∧
    (c.status).2.err = .ok () ∧
    (((c.status).2).status).1 = .ok () ∧
    (draw_image c image src dst (.ok ())).err = c.err ∧
    (draw_image c image src dst (.error e)).err = .error (wrapJs e) := by
  refine ⟨rfl, rfl, rfl, ?_, rfl⟩
  simp only [draw_image, WebRenderContext.save, restore_fst, restore_snd_err]

/-- C8: blurred_rect with a gradient brush sets the shadow color to the fixed
placeholder magenta string and still fills the rectangle (and, being a total
function, does not crash). -/
theorem blurred_rect_gradient_placeholder (c : WebRenderContext) (rect : Rect)
    (blur_radius : ℚ) (g : CanvasGradient) :
    blurred_rect c rect blur_radius (.Gradient g) =
      { c with
          trace := c.trace ++
            [.setShadowBlur blur_radius, .setShadowColor "#f0f",
             .fillRect rect.x0 rect.y0 rect.width rect.height,
             .setShadowColor "none"] } :=
  rfl

/-- set_gradient_stops appends one converted stop per input stop, in order. -/
theorem set_gradient_stops_stops (dst : CanvasGradient) (src : List GradientStop) :
    (set_gradient_stops dst src).stops =
      dst.stops ++ src.map (fun s => (s.pos, format_color s.color.as_rgba_u32)) := by
  induction src generalizing dst with
  | nil => simp [set_gradient_stops]
  | cons s rest ih =>
    simp only [set_gradient_stops, List.foldl_cons] at ih ⊢
    rw [ih]
    simp

/-- On a freshly created native gradient the stops are exactly the converted
input stops, in order. -/
theorem set_gradient_stops_fresh (src : List GradientStop) :
    set_gradient_stops ⟨[]⟩ src =
      ⟨src.map (fun s => (s.pos, format_color s.color.as_rgba_u32))⟩ := by
  have h := set_gradient_stops_stops ⟨[]⟩ src
  cases hg : set_gradient_stops ⟨[]⟩ src
  simp_all

/-- C6: gradient adds every color stop of the descriptor to the native
gradient in the given order (for a linear gradient, and for a radial gradient
whose native creation succeeded with a fresh stop-free handle), and when the
native radial-gradient API rejects the parameters it returns a failure value
embedding the native error message, not a panic. -/
theorem gradient_stops_in_order_and_wraps_native_errors (c : WebRenderContext)
    (linear : FixedLinearGradient) (radial : FixedRadialGradient)
    (res : Except JsVal CanvasGradient) (e : JsVal) :
    (c.gradient (.Linear linear) res).1 =
      .ok (.Gradient ⟨linear.stops.map (fun s => (s.pos, format_color s.color.as_rgba_u32))⟩) ∧
    (c.gradient (.Radial radial) (.ok ⟨[]⟩)).1 =
      .ok (.Gradient ⟨radial.stops.map (fun s => (s.pos, format_color s.color.as_rgba_u32))⟩) ∧
    (c.gradient (.Radial radial) (.error e)).1 =
      .error (.BackendError ("Canvas error: " ++ e)) := by
  refine ⟨?_, ?_, rfl⟩ <;>
    simp [WebRenderContext.gradient, set_gradient_stops_fresh]

/-- IEEE equality holds exactly between equal non-NaN values. -/
theorem F64.beq_iff {a b : F64} : F64.beq a b = true ↔ a = b ∧ a.isNan = false := by
  cases a <;> cases b <;> simp [F64.beq, F64.isNan]

/-- A failed IEEE inequality test implies the values are equal. -/
theorem F64.eq_of_not_bne {a b : F64} (h : ¬ F64.bne a b = true) : a = b := by
  cases he : F64.beq a b with
  | true => exact (F64.beq_iff.mp he).1
  | false => exact absurd (by simp [F64.bne, he]) h

/-- A non-NaN value compares IEEE-equal to itself, so its != test fails. -/
theorem F64.bne_self {a : F64} (h : a.isNan = false) : F64.bne a a = false := by
  cases a <;> simp_all [F64.bne, F64.beq, F64.isNan]

/-- Slice equality of f64 lists implies list equality. -/
theorem F64.eq_of_listBeq : ∀ {xs ys : List F64}, F64.listBeq xs ys = true → xs = ys
  | [], [], _ => rfl
  | [], _ :: _, h => by simp [F64.listBeq] at h
  | _ :: _, [], h => by simp [F64.listBeq] at h
  | x :: xs, y :: ys, h => by
    simp only [F64.listBeq, Bool.and_eq_true] at h
    rw [(F64.beq_iff.mp h.1).1, F64.eq_of_listBeq h.2]

/-- A failed slice inequality test implies the lists are equal. -/
theorem F64.eq_of_not_listBne {xs ys : List F64} (h : ¬ F64.listBne xs ys = true) :
    xs = ys := by
  cases he : F64.listBeq xs ys with
  | true => exact F64.eq_of_listBeq he
  | false => exact absurd (by simp [F64.listBne, he]) h

/-- An f64 list without NaN entries compares slice-equal to itself. -/
theorem F64.listBne_self {xs : List F64}
    (h : xs.all (fun x => !x.isNan) = true) : F64.listBne xs xs = false := by
  have hbeq : F64.listBeq xs xs = true := by
    induction xs with
    | nil => rfl
    | cons x xs ih =>
      simp only [List.all_cons, Bool.and_eq_true] at h
      have hx : x.isNan = false := by simpa using h.1
      have hbx : F64.beq x x = true := F64.beq_iff.mpr ⟨rfl, hx⟩
      simp [F64.listBeq, hbx, ih h.2]
  simp [F64.listBne, hbeq]

/-- Derived line-join equality implies equality of the joins. -/
theorem LineJoin.eq_of_beq : ∀ {a b : LineJoin}, LineJoin.beq a b = true → a = b
  | .Miter x, .Miter y, h => by rw [(F64.beq_iff.mp h).1]
  | .Round, .Round, _ => rfl
  | .Bevel, .Bevel, _ => rfl
  | .Miter _, .Round, h => by simp [LineJoin.beq] at h
  | .Miter _, .Bevel, h => by simp [LineJoin.beq] at h
  | .Round, .Miter _, h => by simp [LineJoin.beq] at h
  | .Round, .Bevel, h => by simp [LineJoin.beq] at h
  | .Bevel, .Miter _, h => by simp [LineJoin.beq] at h
  | .Bevel, .Round, h => by simp [LineJoin.beq] at h

/-- A failed line-join inequality test implies the joins are equal. -/
theorem LineJoin.join_eq_of_not_bne {a b : LineJoin} (h : ¬ LineJoin.bne a b = true) :
    a = b := by
  cases he : LineJoin.beq a b with
  | true => exact LineJoin.eq_of_beq he
  | false => exact absurd (by simp [LineJoin.bne, he]) h

/-- A line join with a non-NaN miter limit compares equal to itself. -/
theorem LineJoin.join_bne_self {j : LineJoin} (h : j.nanFree = true) :
    LineJoin.bne j j = false := by
  cases j with
  | Miter l =>
    have hl : l.isNan = false := by simpa [LineJoin.nanFree] using h
    simp [LineJoin.bne, LineJoin.beq, F64.beq_iff.mpr ⟨rfl, hl⟩]
  | Round => rfl
  | Bevel => rfl

/-- A failed IEEE != test characterised: the values are equal and not NaN. -/
theorem F64.bne_eq_false_iff {a b : F64} :
    F64.bne a b = false ↔ a = b ∧ a.isNan = false := by
  rw [show (F64.bne a b = false) = ((!(F64.beq a b)) = false) from rfl,
    Bool.not_eq_false']
  exact F64.beq_iff

/-- Derived line-join equality characterised: the joins are equal and any
miter limit is not NaN. -/
theorem LineJoin.join_beq_iff {a b : LineJoin} :
    LineJoin.beq a b = true ↔ a = b ∧ a.nanFree = true := by
  cases a <;> cases b <;>
    simp [LineJoin.beq, LineJoin.nanFree, F64.beq_iff, F64.isNan, Bool.not_eq_true']

/-- A failed line-join != test characterised. -/
theorem LineJoin.join_bne_eq_false_iff {a b : LineJoin} :
    LineJoin.bne a b = false ↔ a = b ∧ a.nanFree = true := by
  rw [show (LineJoin.bne a b = false) = ((!(LineJoin.beq a b)) = false) from rfl,
    Bool.not_eq_false']
  exact LineJoin.join_beq_iff

/-- Slice equality of f64 lists characterised: the lists are equal and free
of NaN entries. -/
theorem F64.listBeq_iff : ∀ {xs ys : List F64},
    F64.listBeq xs ys = true ↔ xs = ys ∧ xs.all (fun x => !x.isNan) = true
  | [], [] => by simp [F64.listBeq]
  | [], _ :: _ => by simp [F64.listBeq]
  | _ :: _, [] => by simp [F64.listBeq]
  | x :: xs, y :: ys => by
    simp only [F64.listBeq, Bool.and_eq_true, F64.beq_iff, F64.listBeq_iff,
      List.all_cons, List.cons.injEq, Bool.not_eq_true']
    constructor
    · rintro ⟨⟨hxy, hx⟩, hxs, hall⟩
      exact ⟨⟨hxy, hxs⟩, hx, hall⟩
    · rintro ⟨⟨hxy, hxs⟩, hx, hall⟩
      exact ⟨⟨hxy, hx⟩, hxs, hall⟩

/-- A failed slice != test characterised. -/
theorem F64.listBne_eq_false_iff {xs ys : List F64} :
    F64.listBne xs ys = false ↔ xs = ys ∧ xs.all (fun x => !x.isNan) = true := by
  rw [show (F64.listBne xs ys = false) = ((!(F64.listBeq xs ys)) = false) from rfl,
    Bool.not_eq_false']
  exact F64.listBeq_iff

/-- set_stroke replaces the top-of-stack snapshot with exactly the applied
width and style values (writing each field only when its IEEE != test
holds). -/
theorem set_stroke_canvas_states (c : WebRenderContext) (width : F64)
    (style? : Option StrokeStyle) :
    (c.set_stroke width style?).canvas_states =
      appliedState width (style?.getD StrokeStyle.default) :: c.canvas_states.tail := by
  simp only [WebRenderContext.set_stroke, appliedState]
  split_ifs <;>
    simp_all [CanvasState.mk.injEq, F64.bne_eq_false_iff, LineJoin.join_bne_eq_false_iff,
      F64.listBne_eq_false_iff]

/-- A second application of the same NaN-free stroke width and style finds
every IEEE comparison equal and changes nothing. -/
theorem set_stroke_idem (c : WebRenderContext) (width : F64)
    (style? : Option StrokeStyle)
    (hw : width.isNan = false)
    (hs : (style?.getD StrokeStyle.default).nanFree = true) :
    (c.set_stroke width style?).set_stroke width style? = c.set_stroke width style? := by
  have hcs := set_stroke_canvas_states c width style?
  simp only [StrokeStyle.nanFree, Bool.and_eq_true, Bool.not_eq_true'] at hs
  obtain ⟨⟨hj, hd⟩, ho⟩ := hs
  cases hc1 : c.set_stroke width style? with
  | mk t e sts =>
    rw [hc1] at hcs
    simp only [WebRenderContext.canvas_states] at hcs
    subst hcs
    simp [WebRenderContext.set_stroke, appliedState, F64.bne_self hw,
      LineJoin.join_bne_self hj, F64.listBne_self hd, F64.bne_self ho]

/-- Counterexample to C3 as universally stated: the source compares stroke
parameters with IEEE f64 !=, under which NaN is unequal to itself, so with a
NaN width the second identical application re-issues a native set_line_width
call (the trace grows instead of staying unchanged). -/
theorem set_stroke_nan_counterexample :
    ¬ (((WebRenderContext.new.set_stroke F64.nan none).set_stroke F64.nan none).trace =
        (WebRenderContext.new.set_stroke F64.nan none).trace) := by
  decide

/-- C3 (amended: the applied width, miter limit, dash entries and dash offset
are not NaN): after set_stroke the top-of-stack snapshot holds exactly the
applied width and style values, and applying the same NaN-free stroke width
and stroke style a second time in succession issues zero native state-change
calls (the trace is unchanged) and leaves the whole context identical. -/
theorem set_stroke_diff_suppression (c : WebRenderContext) (width : F64)
    (style? : Option StrokeStyle)
    (hw : width.isNan = false)
    (hs : (style?.getD StrokeStyle.default).nanFree = true) :
    ((c.set_stroke width style?).set_stroke width style?).trace =
      (c.set_stroke width style?).trace ∧
    (c.set_stroke width style?).set_stroke width style? = c.set_stroke width style? ∧
    (c.set_stroke width style?).canvas_states =
      appliedState width (style?.getD StrokeStyle.default) :: c.canvas_states.tail := by
  refine ⟨?_, set_stroke_idem c width style? hw hs,
    set_stroke_canvas_states c width style?⟩
  rw [set_stroke_idem c width style? hw hs]

/-- Witness for the amended C3 at a concrete NaN-free width and the default
style. -/
theorem set_stroke_diff_suppression_witness :
    (F64.num 5).isNan = false ∧
    ((Option.getD none StrokeStyle.default).nanFree = true) ∧
    ((WebRenderContext.new.set_stroke (F64.num 5) none).set_stroke
        (F64.num 5) none).trace =
      (WebRenderContext.new.set_stroke (F64.num 5) none).trace :=
  ⟨by decide, by decide,
    (set_stroke_diff_suppression WebRenderContext.new (F64.num 5) none
      (by decide) (by decide)).1⟩

/-- The per-line loop appends exactly one fill-text call per line metric, in
order, at the computed baseline. -/
theorem drawTextLines_trace (layout : WebTextLayout) (pos : Point)
    (results : Nat → Except JsVal Unit) (l : List LineMetric) (i : Nat)
    (c : WebRenderContext) :
    (drawTextLines layout pos results i l c).trace =
      c.trace ++ l.map (fun lm =>
        NativeCall.fillText (lineText layout lm) pos.x
          (lm.y_offset + lm.baseline + pos.y)) := by
  induction l generalizing i c with
  | nil => simp [drawTextLines]
  | cons lm rest ih =>
    simp only [drawTextLines, List.map_cons]
    rw [ih]
    cases results i <;> simp

/-- The per-line loop splits over list concatenation, with the line counter
advanced past the first block. -/
theorem drawTextLines_append (layout : WebTextLayout) (pos : Point)
    (results : Nat → Except JsVal Unit) (l₁ l₂ : List LineMetric) (i : Nat)
    (c : WebRenderContext) :
    drawTextLines layout pos results i (l₁ ++ l₂) c =
      drawTextLines layout pos results (i + l₁.length) l₂
        (drawTextLines layout pos results i l₁ c) := by
  induction l₁ generalizing i c with
  | nil => simp [drawTextLines]
  | cons lm rest ih =>
    simp only [List.cons_append, drawTextLines, List.length_cons, List.append_eq]
    rw [ih, show i + 1 + rest.length = i + (rest.length + 1) from by omega]

/-- After the per-line loop the deferred-error slot holds the wrapped error
of the LAST failing native call, and is untouched when every call succeeded. -/
theorem drawTextLines_err (layout : WebTextLayout) (pos : Point)
    (results : Nat → Except JsVal Unit) (l : List LineMetric) (i : Nat)
    (c : WebRenderContext) :
    (drawTextLines layout pos results i l c).err =
      match (((List.range l.length).map (fun k => i + k)).filterMap
                (fun j => (results j).errValue)).getLast? with
      | some e => .error (wrapJs e)
      | none => c.err := by
  induction l using List.reverseRecOn with
  | nil => simp [drawTextLines]
  | append_singleton l lm ih =>
    rw [drawTextLines_append]
    simp only [drawTextLines, List.length_append, List.length_cons, List.length_nil,
      Nat.zero_add, List.range_succ, List.map_append, List.filterMap_append, List.map_cons,
      List.map_nil, List.filterMap_cons, List.filterMap_nil]
    cases hres : results (i + l.length) with
    | ok _ =>
      simp only [Except.errValue, List.append_nil]
      exact ih
    | error e =>
      simp [Except.errValue, List.getLast?_concat]

/-- C7: draw_text issues exactly one native fill-text call per line metric of
the layout, in order, each at baseline Y equal to the line y offset plus the
line baseline plus pos.y, after a native save, setting the native font from
the layout font description and the fill paint from the single layout color,
and with a closing native restore; the deferred-error slot afterwards holds
the wrapped failure of the last failing fill-text call, and is untouched when
none failed (failures are recorded, never returned). -/
theorem draw_text_lines_and_deferred_errors (c : WebRenderContext)
    (layout : WebTextLayout) (pos : Point) (results : Nat → Except JsVal Unit) :
    (draw_text c layout pos results).trace =
      c.trace ++
        [.save, .setFont layout.font.get_font_string,
         .setFillStyle (format_color layout.color.as_rgba_u32)] ++
        layout.line_metrics.map (fun lm =>
          NativeCall.fillText (lineText layout lm) pos.x
            (lm.y_offset + lm.baseline + pos.y)) ++
        [.restore] ∧
    (draw_text c layout pos results).err =
      match ((List.range layout.line_metrics.length).filterMap
                (fun j => (results j).errValue)).getLast? with
      | some e => .error (wrapJs e)
      | none => c.err := by
  constructor
  · simp [draw_text, drawTextLines_trace]
  · simp only [draw_text]
    rw [drawTextLines_err]
    simp

/-- Length of the flattened four-channel chunks of the first n pixels. -/
theorem flat4_length (p0 p1 p2 p3 : Nat → Nat) (n : Nat) :
    ((List.range n).flatMap (fun i => [p0 i, p1 i, p2 i, p3 i])).length = n * 4 := by
  induction n with
  | zero => simp
  | succ n ih =>
    rw [List.range_succ, List.flatMap_append]
    simp [ih, Nat.succ_mul]

/-- Setting an index at or past the first block lands in the second block. -/
theorem set_append_ge (l₁ l₂ : List Nat) (i : Nat) (v : Nat) (h : l₁.length ≤ i) :
    (l₁ ++ l₂).set i v = l₁ ++ l₂.set (i - l₁.length) v := by
  rw [List.set_append, if_neg (by omega)]

/-- Four consecutive writes into the head of a zero block replace it. -/
theorem set4_zero_head (L : List Nat) (v0 v1 v2 v3 : Nat) :
    ((((((0 : Nat) :: 0 :: 0 :: 0 :: L).set 0 v0).set 1 v1).set 2 v2).set 3 v3) =
      v0 :: v1 :: v2 :: v3 :: L :=
  rfl

/-- A conversion loop that writes the four channels of pixel i at positions
4i..4i+3 of a zero buffer, as the make_image loops do, produces the
concatenation of the four-channel chunks. -/
theorem foldl_set4_aux (p0 p1 p2 p3 : Nat → Nat) (n m : Nat) (h : n ≤ m) :
    (List.range n).foldl
      (fun nb i => (((nb.set (i * 4 + 0) (p0 i)).set (i * 4 + 1) (p1 i)).set
          (i * 4 + 2) (p2 i)).set (i * 4 + 3) (p3 i))
      (List.replicate (m * 4) 0) =
    ((List.range n).flatMap (fun i => [p0 i, p1 i, p2 i, p3 i])) ++
      List.replicate ((m - n) * 4) 0 := by
  induction n with
  | zero => simp
  | succ n ih =>
    rw [List.range_succ, List.foldl_append, ih (by omega)]
    simp only [List.foldl_cons, List.foldl_nil]
    have hF := flat4_length p0 p1 p2 p3 n
    rw [show (m - n) * 4 = 4 + (m - (n + 1)) * 4 from by omega, List.replicate_add,
        show List.replicate 4 (0 : Nat) = 0 :: 0 :: 0 :: 0 :: [] from rfl]
    rw [set_append_ge _ _ _ _ (by omega), set_append_ge _ _ _ _ (by omega),
        set_append_ge _ _ _ _ (by omega), set_append_ge _ _ _ _ (by omega), hF]
    rw [show n * 4 + 0 - n * 4 = 0 from by omega, show n * 4 + 1 - n * 4 = 1 from by omega,
        show n * 4 + 2 - n * 4 = 2 from by omega, show n * 4 + 3 - n * 4 = 3 from by omega]
    rw [show ((0 : Nat) :: 0 :: 0 :: 0 :: []) ++ List.replicate ((m - (n + 1)) * 4) 0 =
          0 :: 0 :: 0 :: 0 :: List.replicate ((m - (n + 1)) * 4) 0 from rfl,
        set4_zero_head]
    rw [List.flatMap_append]
    simp

/-- The RgbaPremul conversion, pixel by pixel: for every pixel the three
color channels are un-premultiplied by that pixel alpha and the alpha is
kept. -/
theorem makeImageBuf_premul_eq (w h : Nat) (buf : List Nat) :
    makeImageBuf w h buf .RgbaPremul =
      (List.range (w * h)).flatMap (fun i =>
        [unpremul (buf.getD (i * 4 + 0) 0) (buf.getD (i * 4 + 3) 0),
         unpremul (buf.getD (i * 4 + 1) 0) (buf.getD (i * 4 + 3) 0),
         unpremul (buf.getD (i * 4 + 2) 0) (buf.getD (i * 4 + 3) 0),
         buf.getD (i * 4 + 3) 0]) := by
  have := foldl_set4_aux
    (fun i => unpremul (buf.getD (i * 4 + 0) 0) (buf.getD (i * 4 + 3) 0))
    (fun i => unpremul (buf.getD (i * 4 + 1) 0) (buf.getD (i * 4 + 3) 0))
    (fun i => unpremul (buf.getD (i * 4 + 2) 0) (buf.getD (i * 4 + 3) 0))
    (fun i => buf.getD (i * 4 + 3) 0)
    (w * h) (w * h) le_rfl
  simpa [makeImageBuf] using this

/-- The Rgb conversion, pixel by pixel: every pixel expands to RGBA with
alpha 255. -/
theorem makeImageBuf_rgb_eq (w h : Nat) (buf : List Nat) :
    makeImageBuf w h buf .Rgb =
      (List.range (w * h)).flatMap (fun i =>
        [buf.getD (i * 3 + 0) 0, buf.getD (i * 3 + 1) 0,
         buf.getD (i * 3 + 2) 0, 255]) := by
  have := foldl_set4_aux
    (fun i => buf.getD (i * 3 + 0) 0)
    (fun i => buf.getD (i * 3 + 1) 0)
    (fun i => buf.getD (i * 3 + 2) 0)
    (fun _ => 255)
    (w * h) (w * h) le_rfl
  simpa [makeImageBuf] using this

/-- The Grayscale conversion, pixel by pixel: the single channel is
replicated into R, G and B with alpha 255. -/
theorem makeImageBuf_gray_eq (w h : Nat) (buf : List Nat) :
    makeImageBuf w h buf .Grayscale =
      (List.range (w * h)).flatMap (fun i =>
        [buf.getD i 0, buf.getD i 0, buf.getD i 0, 255]) := by
  have := foldl_set4_aux
    (fun i => buf.getD i 0) (fun i => buf.getD i 0) (fun i => buf.getD i 0)
    (fun _ => 255)
    (w * h) (w * h) le_rfl
  simpa [makeImageBuf] using this

/-- C4: the make_image pixel-buffer conversion to straight RGBA8: a
RgbaSeparate buffer passes through unchanged; for RgbaPremul every pixel has
each of R, G, B divided by that pixel alpha (unpremul) with the alpha kept;
an Rgb buffer expands every pixel to RGBA with alpha 255; a Grayscale buffer
replicates the single channel of every pixel into R, G and B with alpha
255. -/
theorem make_image_format_conversion (w h : Nat) (buf : List Nat) :
    makeImageBuf w h buf .RgbaSeparate = buf ∧
    makeImageBuf w h buf .RgbaPremul =
      (List.range (w * h)).flatMap (fun i =>
        [unpremul (buf.getD (i * 4 + 0) 0) (buf.getD (i * 4 + 3) 0),
         unpremul (buf.getD (i * 4 + 1) 0) (buf.getD (i * 4 + 3) 0),
         unpremul (buf.getD (i * 4 + 2) 0) (buf.getD (i * 4 + 3) 0),
         buf.getD (i * 4 + 3) 0]) ∧
    makeImageBuf w h buf .Rgb =
      (List.range (w * h)).flatMap (fun i =>
        [buf.getD (i * 3 + 0) 0, buf.getD (i * 3 + 1) 0,
         buf.getD (i * 3 + 2) 0, 255]) ∧
    makeImageBuf w h buf .Grayscale =
      (List.range (w * h)).flatMap (fun i =>
        [buf.getD i 0, buf.getD i 0, buf.getD i 0, 255]) :=
  ⟨rfl, makeImageBuf_premul_eq w h buf, makeImageBuf_rgb_eq w h buf,
    makeImageBuf_gray_eq w h buf⟩

/-- Un-premultiplying a byte channel by a full alpha returns it unchanged. -/
theorem unpremul_opaque (x : Nat) (h : x ≤ 255) : unpremul x 255 = x := by
  have h255 : (0 : Nat) < 255 := by omega
  simp [unpremul, Nat.mul_div_cancel x h255, min_eq_right h]

/-- Every defaulted read from a list of bytes is a byte. -/
theorem getD_le_of_all_le (l : List Nat) (hl : ∀ x ∈ l, x ≤ 255) (i : Nat) :
    l.getD i 0 ≤ 255 := by
  by_cases hi : i < l.length
  · rw [List.getD_eq_getElem l 0 hi]
    exact hl _ (List.getElem_mem hi)
  · rw [List.getD_eq_default l 0 (by omega)]
    omega

/-- Reading four positions past a four-element head lands in the tail. -/
theorem getD_cons4 (x0 x1 x2 x3 : Nat) (t : List Nat) (j : Nat) :
    (x0 :: x1 :: x2 :: x3 :: t).getD (j + 4) 0 = t.getD j 0 :=
  rfl

/-- Reassembling a list of length 4n from its four-byte chunks gives the list
back. -/
theorem flatMap_chunks4 (l : List Nat) (n : Nat) (h : l.length = n * 4) :
    (List.range n).flatMap (fun i =>
      [l.getD (i * 4) 0, l.getD (i * 4 + 1) 0,
       l.getD (i * 4 + 2) 0, l.getD (i * 4 + 3) 0]) = l := by
  induction n generalizing l with
  | zero =>
    have hnil : l = [] := List.length_eq_zero.mp (by omega)
    simp [hnil]
  | succ n ih =>
    rcases l with _ | ⟨x0, _ | ⟨x1, _ | ⟨x2, _ | ⟨x3, t⟩⟩⟩⟩
    · simp only [List.length_nil] at h; omega
    · simp only [List.length_cons, List.length_nil] at h; omega
    · simp only [List.length_cons, List.length_nil] at h; omega
    · simp only [List.length_cons, List.length_nil] at h; omega
    · have ht : t.length = n * 4 := by
        simp only [List.length_cons] at h; omega
      rw [List.range_succ_eq_map, List.flatMap_cons, List.flatMap_map]
      have harith0 : ∀ (i : Nat), (i + 1) * 4 = i * 4 + 4 := by
        intro i; ring
      have harith : ∀ (i k : Nat), (i + 1) * 4 + k = i * 4 + k + 4 := by
        intro i k; ring
      simp only [Nat.succ_eq_add_one, harith0, harith, getD_cons4]
      rw [ih t ht]
      rfl

/-- C5: on a pixel buffer of the right length in which every entry is a byte
and every pixel alpha is 255, the RgbaPremul conversion of make_image
produces exactly the same converted pixel data as the RgbaSeparate
conversion. -/
theorem make_image_premul_opaque_matches_separate (w h : Nat) (buf : List Nat)
    (hlen : buf.length = w * h * 4)
    (hbyte : ∀ x ∈ buf, x ≤ 255)
    (halpha : ∀ i, i < w * h → buf.getD (i * 4 + 3) 0 = 255) :
    makeImageBuf w h buf .RgbaPremul = makeImageBuf w h buf .RgbaSeparate := by
  rw [makeImageBuf_premul_eq]
  have hfun : ∀ i ∈ List.range (w * h),
      [unpremul (buf.getD (i * 4 + 0) 0) (buf.getD (i * 4 + 3) 0),
       unpremul (buf.getD (i * 4 + 1) 0) (buf.getD (i * 4 + 3) 0),
       unpremul (buf.getD (i * 4 + 2) 0) (buf.getD (i * 4 + 3) 0),
       buf.getD (i * 4 + 3) 0] =
      [buf.getD (i * 4) 0, buf.getD (i * 4 + 1) 0,
       buf.getD (i * 4 + 2) 0, buf.getD (i * 4 + 3) 0] := by
    intro i hi
    rw [List.mem_range] at hi
    rw [halpha i hi, unpremul_opaque _ (getD_le_of_all_le buf hbyte _),
        unpremul_opaque _ (getD_le_of_all_le buf hbyte _),
        unpremul_opaque _ (getD_le_of_all_le buf hbyte _)]
    rfl
  rw [List.flatMap_congr hfun, flatMap_chunks4 buf (w * h) hlen]
  rfl

/-- Witness for C5 at a concrete opaque one-pixel buffer. -/
theorem make_image_premul_opaque_matches_separate_witness :
    ([10, 20, 30, 255] : List Nat).length = 1 * 1 * 4 ∧
    (∀ x ∈ ([10, 20, 30, 255] : List Nat), x ≤ 255) ∧
    (∀ i, i < 1 * 1 → ([10, 20, 30, 255] : List Nat).getD (i * 4 + 3) 0 = 255) ∧
    makeImageBuf 1 1 [10, 20, 30, 255] .RgbaPremul =
      makeImageBuf 1 1 [10, 20, 30, 255] .RgbaSeparate :=
  ⟨by decide, by decide, by decide,
    make_image_premul_opaque_matches_separate 1 1 [10, 20, 30, 255]
      (by decide) (by decide) (by decide)⟩
